import Mathlib

/-!
Shallow embedding of the `clog` package (a context-propagated structured
logging facade over Go's `log/slog`) and proofs about its specification.

The facade itself (`SetDefault`, `WithLogger`, `loggerFromContext`,
`Enabled`, `Debug`/`Info`/`Warn`/`Error`/`Log`/`LogAttrs`,
`WithGroup`/`WithAttrs`/`With`) is translated from `clog.go`.  The external
collaborators — Go contexts (`context.WithValue` / `ctx.Value`) and the
`slog` logging engine (levels, key/value-to-attribute coercion, logger
derivation, group qualification, level gating) — are modelled from their
documented standard-library semantics, since the facade's observable
behaviour is the composition of both.

Conventions of the embedding:
  * A Go `*slog.Logger` is an `Option Logger`; `none` is a nil pointer.
    Calling a method that dereferences a nil logger is a panic, modelled
    by the facade operation returning `none` (`Option`-valued result).
  * The package-level mutable variable `defaultLogger` and the contents of
    every sink are gathered in an explicit `State` that is threaded through
    the operations; operations that only read the state return it unchanged.
  * A sink is identified by a natural number; an emitted record carries the
    sink it was written to, its level, message and fully qualified
    attributes.  Rendering/encoding by a concrete handler is out of scope.
-/

namespace Clog

/-- slog levels are integers; `slog.LevelDebug = -4`. -/
def LevelDebug : Int := -4

/-- `slog.LevelInfo = 0`. -/
def LevelInfo : Int := 0

/-- `slog.LevelWarn = 4`. -/
def LevelWarn : Int := 4

/-- `slog.LevelError = 8`. -/
def LevelError : Int := 8

/-- An `slog.Value`: the payload of an attribute.  `attrVal` models an
`slog.Attr` that was passed where a value was expected (slog wraps it as a
`KindAny` value holding the attribute). -/
inductive Value where
  | str (s : String)
  | int (n : Int)
  | bool (b : Bool)
  | attrVal (key : String) (v : Value)
deriving DecidableEq, Repr

/-- An `slog.Attr`: a key together with a value. -/
structure Attr where
  key : String
  value : Value
deriving DecidableEq, Repr

/-- One element of a variadic `...any` argument list as `slog` interprets
it: a string (usable as a key), a ready-made `slog.Attr`, or any other
value. -/
inductive Arg where
  | str (s : String)
  | val (v : Value)
  | attr (a : Attr)
deriving DecidableEq, Repr

/-- `slog`'s `badKey` sentinel used for malformed key/value lists. -/
def badKey : String := "!BADKEY"

/-- Coerce one argument into an attribute value, as `slog.AnyValue` does:
a string becomes a string value, an `Attr` is wrapped as an any-value, and
other values stand for themselves. -/
def argToValue : Arg → Value
  | .str s => .str s
  | .val v => v
  | .attr a => .attrVal a.key a.value

/-- `slog`'s `argsToAttrSlice`/`argsToAttr`: consume the argument list,
pairing a string key with the following value, taking an `Attr` as-is, and
tagging an unpaired or non-string leading element with `badKey`. -/
def argsToAttrs : List Arg → List Attr
  | [] => []
  | [.str s] => [⟨badKey, .str s⟩]
  | .str s :: a :: rest => ⟨s, argToValue a⟩ :: argsToAttrs rest
  | .attr a :: rest => a :: argsToAttrs rest
  | .val v :: rest => ⟨badKey, v⟩ :: argsToAttrs rest

/-- An attribute as it reaches a sink: its key qualified by the group names
(outermost first) that were open when it was added. -/
structure QAttr where
  path : List String
  key : String
  value : Value
deriving DecidableEq, Repr

/-- A (non-nil) `slog.Logger`: the sink its handler writes to, the
handler's minimum level, the currently open groups (outermost first), and
the attributes pre-bound on the handler, already fully qualified. -/
structure Logger where
  sink : Nat
  minLevel : Int
  groups : List String
  preAttrs : List QAttr
deriving DecidableEq, Repr

/-- A Go `*slog.Logger`: possibly the nil pointer. -/
abbrev LoggerRef := Option Logger

/-- Qualify a list of plain attributes by the currently open groups. -/
def qualify (groups : List String) (attrs : List Attr) : List QAttr :=
  attrs.map fun a => ⟨groups, a.key, a.value⟩

/-- `slog.Logger.With` on a non-nil logger with a nonempty argument list:
the coerced attributes are layered onto the handler's pre-bound attributes,
qualified by the currently open groups.  (The empty-argument shortcut of
`Logger.With` is handled at the call sites that can pass an empty list.) -/
def Logger.withArgs (l : Logger) (args : List Arg) : Logger :=
  { l with preAttrs := l.preAttrs ++ qualify l.groups (argsToAttrs args) }

/-- `slog.Logger.WithGroup`: opens a further (innermost) group, except that
an empty name returns the receiver unchanged. -/
def Logger.withGroup (l : Logger) (g : String) : Logger :=
  if g = "" then l else { l with groups := l.groups ++ [g] }

/-- `slog.Handler.Enabled` for the modelled handler: a level is enabled
iff it is at or above the handler's minimum level. -/
def Logger.enabledAt (l : Logger) (lvl : Int) : Bool :=
  l.minLevel ≤ lvl

/-- A record as observed in a sink: which sink it was written to, the
level, the message, and the fully qualified attributes (the handler's
pre-bound attributes followed by the call-site attributes qualified by the
open groups). -/
structure Record where
  sink : Nat
  level : Int
  msg : String
  attrs : List QAttr
deriving DecidableEq, Repr

/-- A key usable with `context.WithValue`: the facade's private
`contextKey{}`, or any key belonging to other users of the context. -/
inductive CtxKey where
  | loggerKey
  | other (n : Nat)
deriving DecidableEq, Repr

/-- A value stored in a context slot: a `*slog.Logger` (possibly nil), or
any value stored by other users of the context. -/
inductive CtxVal where
  | logger (l : LoggerRef)
  | other (n : Nat)
deriving DecidableEq, Repr

/-- A Go `context.Context`: an immutable chain of key/value derivations
over a background context. -/
inductive Context where
  | background
  | withValue (parent : Context) (key : CtxKey) (val : CtxVal)
deriving DecidableEq, Repr

/-- `ctx.Value(k)`: walk the chain towards the background context and
return the value of the nearest (most recently derived) binding for `k`,
or absence. -/
def Context.value : Context → CtxKey → Option CtxVal
  | .background, _ => none
  | .withValue p k v, k' => if k' = k then some v else p.value k'

/-- The process-wide mutable state read and written by the facade: the
package variable `defaultLogger` (a possibly-nil pointer) together with
the contents of all sinks, oldest record first. -/
structure State where
  defaultLogger : LoggerRef
  records : List Record
deriving DecidableEq, Repr

/-- `SetDefault(logger)`: replaces the package-level default logger. -/
def SetDefault (l : LoggerRef) (st : State) : State :=
  { st with defaultLogger := l }

/-- `WithLogger(ctx, logger)`: `context.WithValue(ctx, contextKey{},
logger)`. -/
def WithLogger (ctx : Context) (l : LoggerRef) : Context :=
  Context.withValue ctx .loggerKey (.logger l)

/-- `loggerFromContext(ctx)`: look up the reserved slot; the type
assertion succeeds exactly when the slot holds a `*slog.Logger` (even a
typed nil one); otherwise fall back to the current default logger. -/
def loggerFromContext (st : State) (ctx : Context) : LoggerRef :=
  match ctx.value .loggerKey with
  | some (.logger l) => l
  | _ => st.defaultLogger

/-- The logger bound on the context chain, if the reserved slot is bound:
`some ref` when the nearest reserved-slot binding holds the pointer `ref`
(possibly nil), `none` when the chain carries no bound logger. -/
def Context.boundLogger (ctx : Context) : Option LoggerRef :=
  match ctx.value .loggerKey with
  | some (.logger l) => some l
  | _ => none

/-- Whether no binding in the context chain stores a nil `*slog.Logger`
under the reserved slot. -/
def Context.noNilLogger : Context → Bool
  | .background => true
  | .withValue p k v =>
      (match k, v with
       | .loggerKey, .logger none => false
       | _, _ => true) && p.noNilLogger

/-- `Enabled(ctx, level)`: resolve the effective logger and ask its
handler; dereferencing a nil resolved logger panics (`none`).  The state
is returned untouched: the function only reads it. -/
def Enabled (st : State) (ctx : Context) (lvl : Int) : Option (Bool × State) :=
  match loggerFromContext st ctx with
  | none => none
  | some l => some (l.enabledAt lvl, st)

/-- The state after an (enabled) emission through logger `l`: the sink
receives one record at the given level, carrying the message, the
handler's pre-bound attributes and the call-site attributes qualified by
the open groups. -/
def State.afterEmit (st : State) (l : Logger) (lvl : Int) (msg : String)
    (args : List Arg) : State :=
  { st with records := st.records ++
      [⟨l.sink, lvl, msg, l.preAttrs ++ qualify l.groups (argsToAttrs args)⟩] }

/-- `slog.Logger.log` on a non-nil logger: gate on the handler's level,
then hand the record to the handler. -/
def Logger.emit (l : Logger) (st : State) (lvl : Int) (msg : String)
    (args : List Arg) : State :=
  if l.enabledAt lvl then st.afterEmit l lvl msg args else st

/-- `Log(ctx, level, msg, args...)`: resolve the effective logger and emit
through it; a nil resolved logger panics. -/
def Log (st : State) (ctx : Context) (lvl : Int) (msg : String)
    (args : List Arg) : Option State :=
  match loggerFromContext st ctx with
  | none => none
  | some l => some (l.emit st lvl msg args)

/-- `Debug(ctx, msg, args...)` logs at `slog.LevelDebug`. -/
def Debug (st : State) (ctx : Context) (msg : String) (args : List Arg) :
    Option State :=
  Log st ctx LevelDebug msg args

/-- `Info(ctx, msg, args...)` logs at `slog.LevelInfo`. -/
def Info (st : State) (ctx : Context) (msg : String) (args : List Arg) :
    Option State :=
  Log st ctx LevelInfo msg args

/-- `Warn(ctx, msg, args...)` logs at `slog.LevelWarn`. -/
def Warn (st : State) (ctx : Context) (msg : String) (args : List Arg) :
    Option State :=
  Log st ctx LevelWarn msg args

/-- `Error(ctx, msg, args...)` logs at `slog.LevelError`. -/
def Error (st : State) (ctx : Context) (msg : String) (args : List Arg) :
    Option State :=
  Log st ctx LevelError msg args

/-- `LogAttrs(ctx, level, msg, attrs...)`: the pre-typed variant; each
`slog.Attr` is taken as-is by the coercion. -/
def LogAttrs (st : State) (ctx : Context) (lvl : Int) (msg : String)
    (attrs : List Attr) : Option State :=
  Log st ctx lvl msg (attrs.map Arg.attr)

/-- `With(ctx, args...)`: derive a logger pre-bound with the coerced
attributes and bind it on a new context.  `slog.Logger.With` returns the
receiver (without dereferencing it) when the argument list is empty;
otherwise a nil resolved logger panics.  The state is only read. -/
def With (st : State) (ctx : Context) (args : List Arg) :
    Option (Context × State) :=
  match args, loggerFromContext st ctx with
  | [], ref => some (WithLogger ctx ref, st)
  | _, none => none
  | _, some l => some (WithLogger ctx (some (l.withArgs args)), st)

/-- `slog.Value.Any()` followed by re-coercion: turn an attribute value
back into a variadic argument. -/
def valueToArg : Value → Arg
  | .str s => .str s
  | .attrVal k v => .attr ⟨k, v⟩
  | .int n => .val (.int n)
  | .bool b => .val (.bool b)

/-- The argument list `WithAttrs` builds: for each attribute, its key then
`attr.Value.Any()`. -/
def attrsToArgs : List Attr → List Arg
  | [] => []
  | a :: rest => .str a.key :: valueToArg a.value :: attrsToArgs rest

/-- `WithAttrs(ctx, attrs...)`: flatten the attributes into a key/value
argument list and derive via `logger.With`, binding the result.  Mirrors
the Go loop `args = append(args, attr.Key, attr.Value.Any())`. -/
def WithAttrs (st : State) (ctx : Context) (attrs : List Attr) :
    Option (Context × State) :=
  let args := attrsToArgs attrs
  match args, loggerFromContext st ctx with
  | [], ref => some (WithLogger ctx ref, st)
  | _, none => none
  | _, some l => some (WithLogger ctx (some (l.withArgs args)), st)

/-- `WithGroup(ctx, group)`: derive the resolved logger with a further
group and bind it.  `slog.Logger.WithGroup` returns the receiver (without
dereferencing it) when the name is empty; otherwise a nil resolved logger
panics. -/
def WithGroup (st : State) (ctx : Context) (g : String) :
    Option (Context × State) :=
  match loggerFromContext st ctx with
  | none => if g = "" then some (WithLogger ctx none, st) else none
  | some l => some (WithLogger ctx (some (l.withGroup g)), st)

/-- Binding pre-built attributes directly onto a logger, with no trip
through the generic key/value coercion: the specification's description of
`WithAttrs` ("takes pre-built attribute values directly, avoiding the
generic key/value coercion step").  Used as the comparison point of the
refinement claim about `WithAttrs`. -/
def Logger.withAttrsDirect (l : Logger) (attrs : List Attr) : Logger :=
  { l with preAttrs := l.preAttrs ++ qualify l.groups attrs }

/-- The state after `init()`: `defaultLogger = slog.Default()`, a non-nil
baseline logger writing to the standard-error sink (sink 0) at the default
`Info` threshold, with no groups and no pre-bound attributes; no records
written yet. -/
def baselineLogger : Logger := ⟨0, LevelInfo, [], []⟩

/-- Fresh process state. -/
def initState : State := ⟨some baselineLogger, []⟩

/-- A logger whose handler only admits `Error` and above (sink 0). -/
def errLogger : Logger := ⟨0, LevelError, [], []⟩

/-- A process state whose default logger only admits `Error` and above. -/
def errState : State := ⟨some errLogger, []⟩

/-- A logger whose handler admits every standard level (sink 1). -/
def dbgLogger : Logger := ⟨1, LevelDebug, [], []⟩

/-- A process state whose default logger admits every standard level. -/
def dbgState : State := ⟨some dbgLogger, []⟩

/-! ## Shared lemmas -/

/-- Resolution returns the nearest bound logger if one exists, otherwise
the current default. -/
theorem loggerFromContext_eq (st : State) (ctx : Context) :
    loggerFromContext st ctx = ctx.boundLogger.getD st.defaultLogger := by
  unfold loggerFromContext Context.boundLogger
  cases h : ctx.value CtxKey.loggerKey with
  | none => rfl
  | some cv => cases cv <;> rfl

/-- Resolution on a freshly bound context returns the bound reference. -/
theorem loggerFromContext_withLogger (st : State) (ctx : Context)
    (l : LoggerRef) : loggerFromContext st (WithLogger ctx l) = l := rfl

/-! ## C1 -/

/-- C1: resolution returns the logger of the nearest (most recently
derived) binding of the reserved slot: `WithLogger` binds exactly the
given reference, a later `WithLogger` shadows an earlier one, the derived
context agrees with its parent on every other key, and bindings of other
keys are transparent to resolution. -/
theorem C1_withLogger_binds_and_shadows (st : State) (ctx : Context)
    (l l2 : LoggerRef) (k : CtxKey) (v : CtxVal)
    (hk : k ≠ CtxKey.loggerKey) :
    loggerFromContext st (WithLogger ctx l) = l ∧
    loggerFromContext st (WithLogger (WithLogger ctx l) l2) = l2 ∧
    (WithLogger ctx l).value k = ctx.value k ∧
    loggerFromContext st (Context.withValue ctx k v) =
      loggerFromContext st ctx := by
  refine ⟨rfl, rfl, ?_, ?_⟩
  · simp [WithLogger, Context.value, hk]
  · unfold loggerFromContext
    have hke : CtxKey.loggerKey ≠ k := fun h => hk h.symm
    have : (Context.withValue ctx k v).value CtxKey.loggerKey =
        ctx.value CtxKey.loggerKey := by
      simp [Context.value, hke]
    rw [this]

/-- Witness for C1 at a concrete context, logger and foreign key. -/
theorem C1_witness :
    loggerFromContext initState
        (WithLogger Context.background (some baselineLogger)) =
      some baselineLogger ∧
    loggerFromContext initState
        (WithLogger (WithLogger Context.background (some baselineLogger))
          none) = none ∧
    (WithLogger Context.background (some baselineLogger)).value
        (CtxKey.other 0) = Context.background.value (CtxKey.other 0) ∧
    loggerFromContext initState
        (Context.withValue Context.background (CtxKey.other 0)
          (CtxVal.other 1)) =
      loggerFromContext initState Context.background :=
  C1_withLogger_binds_and_shadows initState Context.background
    (some baselineLogger) none (CtxKey.other 0) (CtxVal.other 1) (by decide)

/-! ## C2 -/

/-- C2 counterexample: the claim asserts resolution is never nil with no
precondition on earlier `WithLogger` arguments, but binding a nil
`*slog.Logger` makes the type assertion in `loggerFromContext` succeed and
resolution returns that nil pointer. -/
theorem C2_counterexample :
    loggerFromContext initState (WithLogger Context.background none) =
      none := rfl

/-- C2 (amended): provided no binding on the context chain stores a nil
logger in the reserved slot and the current default logger is non-nil,
resolution yields a non-nil logger. -/
theorem C2_resolution_not_nil (st : State) (ctx : Context)
    (hctx : ctx.noNilLogger = true) (hd : st.defaultLogger.isSome) :
    (loggerFromContext st ctx).isSome := by
  induction ctx with
  | background => simpa [loggerFromContext, Context.value] using hd
  | withValue p k v ih =>
      simp only [Context.noNilLogger, Bool.and_eq_true] at hctx
      cases k with
      | loggerKey =>
          cases v with
          | logger l =>
              cases l with
              | none => exact absurd hctx.1 (by decide)
              | some x => simp [loggerFromContext, Context.value]
          | other n => simpa [loggerFromContext, Context.value] using hd
      | other m =>
          simpa [loggerFromContext, Context.value] using ih hctx.2

/-- Witness for the amended C2 at a concrete chain. -/
theorem C2_witness :
    (loggerFromContext initState
        (WithLogger Context.background (some baselineLogger))).isSome :=
  C2_resolution_not_nil initState
    (WithLogger Context.background (some baselineLogger)) (by decide)
    (by decide)

/-! ## C3 -/

/-- C3: after `SetDefault nd`, a context with no bound logger resolves to
`nd`, while a context that bound a logger still resolves to that bound
logger, exactly as before the `SetDefault` call. -/
theorem C3_setDefault_changes_only_unbound (st : State) (ctx : Context)
    (nd b : LoggerRef) :
    (ctx.boundLogger = none →
       loggerFromContext (SetDefault nd st) ctx = nd) ∧
    (ctx.boundLogger = some b →
       loggerFromContext (SetDefault nd st) ctx = b ∧
       loggerFromContext st ctx = b) := by
  refine ⟨fun h0 => ?_, fun hb => ?_⟩
  · rw [loggerFromContext_eq, h0]; rfl
  · rw [loggerFromContext_eq, hb, loggerFromContext_eq, hb]; exact ⟨rfl, rfl⟩

/-- Witness for C3: a fresh context follows the new default, a bound
context keeps its logger. -/
theorem C3_witness :
    loggerFromContext (SetDefault none initState) Context.background =
      none ∧
    loggerFromContext (SetDefault none initState)
        (WithLogger Context.background (some baselineLogger)) =
      some baselineLogger :=
  ⟨(C3_setDefault_changes_only_unbound initState Context.background none
      none).1 rfl,
   ((C3_setDefault_changes_only_unbound initState
      (WithLogger Context.background (some baselineLogger)) none
      (some baselineLogger)).2 rfl).1⟩

/-! ## C4 -/

/-- C4 counterexample: when the resolved logger's threshold is `Error`,
`Debug` emits no record at all — the state is returned unchanged with an
empty sink — contradicting "emits exactly one record" for every context,
message and argument list. -/
theorem C4_counterexample :
    Debug errState Context.background "m" [] = some errState ∧
    errState.records = [] := ⟨rfl, rfl⟩

/-- Successful emission: when resolution yields a non-nil logger enabled
at the level, `Log` appends exactly the one expected record. -/
theorem Log_emits (st : State) (ctx : Context) (l : Logger) (lvl : Int)
    (msg : String) (args : List Arg)
    (h : loggerFromContext st ctx = some l) (he : l.minLevel ≤ lvl) :
    Log st ctx lvl msg args = some (st.afterEmit l lvl msg args) := by
  unfold Log
  rw [h]
  simp [Logger.emit, Logger.enabledAt, he]

/-- C4 (amended): provided the resolved logger is non-nil and its
threshold admits the level, each of Debug/Info/Warn/Error appends exactly
one record at its fixed level, carrying the message and the coerced
key/value pairs, and `Log` does the same at the caller-supplied level. -/
theorem C4_dispatchers_emit_one_record (st : State) (ctx : Context)
    (l : Logger) (msg : String) (args : List Arg) (lvl : Int)
    (h : loggerFromContext st ctx = some l)
    (hmin : l.minLevel ≤ LevelDebug) (hlvl : l.minLevel ≤ lvl) :
    Debug st ctx msg args = some (st.afterEmit l LevelDebug msg args) ∧
    Info st ctx msg args = some (st.afterEmit l LevelInfo msg args) ∧
    Warn st ctx msg args = some (st.afterEmit l LevelWarn msg args) ∧
    Error st ctx msg args = some (st.afterEmit l LevelError msg args) ∧
    Log st ctx lvl msg args = some (st.afterEmit l lvl msg args) :=
  ⟨Log_emits st ctx l LevelDebug msg args h hmin,
   Log_emits st ctx l LevelInfo msg args h (le_trans hmin (by decide)),
   Log_emits st ctx l LevelWarn msg args h (le_trans hmin (by decide)),
   Log_emits st ctx l LevelError msg args h (le_trans hmin (by decide)),
   Log_emits st ctx l lvl msg args h hlvl⟩

/-- Witness for the amended C4 on a debug-level default logger. -/
theorem C4_witness :
    Debug dbgState Context.background "m" [] =
      some ⟨some dbgLogger, [⟨1, LevelDebug, "m", []⟩]⟩ ∧
    Info dbgState Context.background "m" [] =
      some ⟨some dbgLogger, [⟨1, LevelInfo, "m", []⟩]⟩ ∧
    Warn dbgState Context.background "m" [] =
      some ⟨some dbgLogger, [⟨1, LevelWarn, "m", []⟩]⟩ ∧
    Error dbgState Context.background "m" [] =
      some ⟨some dbgLogger, [⟨1, LevelError, "m", []⟩]⟩ ∧
    Log dbgState Context.background LevelError "m" [] =
      some ⟨some dbgLogger, [⟨1, LevelError, "m", []⟩]⟩ :=
  C4_dispatchers_emit_one_record dbgState Context.background dbgLogger "m"
    [] LevelError rfl (by decide) (by decide)

/-! ## C5 -/

/-- C5: `Enabled` returns exactly the resolved logger's threshold
decision — `false` strictly below the threshold, `true` at or above — and
returns the process state untouched, emitting nothing. -/
theorem C5_enabled_is_threshold_decision (st : State) (ctx : Context)
    (l : Logger) (lvl : Int) (h : loggerFromContext st ctx = some l) :
    (lvl < l.minLevel → Enabled st ctx lvl = some (false, st)) ∧
    (l.minLevel ≤ lvl → Enabled st ctx lvl = some (true, st)) ∧
    Enabled st ctx lvl = some (l.enabledAt lvl, st) := by
  unfold Enabled
  rw [h]
  refine ⟨fun hlt => ?_, fun hle => ?_, rfl⟩
  · simp [Logger.enabledAt, not_le.mpr hlt]
  · simp [Logger.enabledAt, hle]

/-- Witness for C5: on the baseline Info-threshold logger, Debug is
disabled and Warn is enabled, with the state unchanged. -/
theorem C5_witness :
    Enabled initState Context.background LevelDebug =
      some (false, initState) ∧
    Enabled initState Context.background LevelWarn =
      some (true, initState) :=
  ⟨(C5_enabled_is_threshold_decision initState Context.background
      baselineLogger LevelDebug rfl).1 (by decide),
   (C5_enabled_is_threshold_decision initState Context.background
      baselineLogger LevelWarn rfl).2.1 (by decide)⟩

/-! ## C6 -/

/-- Turning a value into a variadic argument and coercing it back is the
identity (`slog.AnyValue` of `Value.Any()` rebuilds an equal value). -/
theorem argToValue_valueToArg (v : Value) : argToValue (valueToArg v) = v := by
  cases v <;> rfl

/-- Coercing the argument list `WithAttrs` builds recovers exactly the
original attributes. -/
theorem argsToAttrs_attrsToArgs (attrs : List Attr) :
    argsToAttrs (attrsToArgs attrs) = attrs := by
  induction attrs with
  | nil => rfl
  | cons a rest ih =>
      simp [attrsToArgs, argsToAttrs, argToValue_valueToArg, ih]

/-- C6: `WithAttrs` behaves exactly like `With` on the corresponding
key/value pairs, and (provided resolution yields a non-nil logger) the
bound logger carries the pre-built attributes bound directly, as if no
coercion round-trip had happened. -/
theorem C6_withAttrs_refines_with (st : State) (ctx : Context)
    (attrs : List Attr) (l : Logger)
    (h : loggerFromContext st ctx = some l) :
    WithAttrs st ctx attrs = With st ctx (attrsToArgs attrs) ∧
    WithAttrs st ctx attrs =
      some (WithLogger ctx (some (l.withAttrsDirect attrs)), st) := by
  refine ⟨rfl, ?_⟩
  cases attrs with
  | nil =>
      simp [WithAttrs, attrsToArgs, h, Logger.withAttrsDirect, qualify]
  | cons a rest =>
      have hw : l.withArgs (attrsToArgs (a :: rest)) =
          l.withAttrsDirect (a :: rest) := by
        simp [Logger.withArgs, Logger.withAttrsDirect,
          argsToAttrs_attrsToArgs]
      rw [← hw]
      simp [WithAttrs, attrsToArgs, h, Logger.withArgs]

/-- Witness for C6 at a concrete attribute list. -/
theorem C6_witness :
    WithAttrs initState Context.background [⟨"k", Value.str "v"⟩] =
      With initState Context.background
        (attrsToArgs [⟨"k", Value.str "v"⟩]) ∧
    WithAttrs initState Context.background [⟨"k", Value.str "v"⟩] =
      some (WithLogger Context.background
        (some ⟨0, LevelInfo, [], [⟨[], "k", Value.str "v"⟩]⟩), initState) :=
  C6_withAttrs_refines_with initState Context.background
    [⟨"k", Value.str "v"⟩] baselineLogger rfl

/-! ## C7 -/

/-- C7: attributes accumulate additively across nested `With` calls: a
record emitted through the twice-derived context carries both the first
and the second call's key/value pair. -/
theorem C7_with_accumulates (st : State) (ctx : Context) (l : Logger)
    (k1 k2 msg : String) (v1 v2 : Value)
    (h : loggerFromContext st ctx = some l) (he : l.minLevel ≤ LevelInfo) :
    ∃ ctx1 ctx2 st' r,
      With st ctx [Arg.str k1, Arg.val v1] = some (ctx1, st) ∧
      With st ctx1 [Arg.str k2, Arg.val v2] = some (ctx2, st) ∧
      Info st ctx2 msg [] = some st' ∧
      st'.records = st.records ++ [r] ∧
      (⟨l.groups, k1, v1⟩ : QAttr) ∈ r.attrs ∧
      (⟨l.groups, k2, v2⟩ : QAttr) ∈ r.attrs := by
  have h1 : With st ctx [Arg.str k1, Arg.val v1] =
      some (WithLogger ctx
        (some (l.withArgs [Arg.str k1, Arg.val v1])), st) := by
    simp [With, h]
  have h2 : With st (WithLogger ctx
        (some (l.withArgs [Arg.str k1, Arg.val v1])))
      [Arg.str k2, Arg.val v2] =
      some (WithLogger (WithLogger ctx
          (some (l.withArgs [Arg.str k1, Arg.val v1])))
        (some ((l.withArgs [Arg.str k1, Arg.val v1]).withArgs
          [Arg.str k2, Arg.val v2])), st) := by
    simp [With, loggerFromContext_withLogger]
  have h3 : Info st (WithLogger (WithLogger ctx
        (some (l.withArgs [Arg.str k1, Arg.val v1])))
        (some ((l.withArgs [Arg.str k1, Arg.val v1]).withArgs
          [Arg.str k2, Arg.val v2]))) msg [] =
      some (st.afterEmit ((l.withArgs [Arg.str k1, Arg.val v1]).withArgs
        [Arg.str k2, Arg.val v2]) LevelInfo msg []) :=
    Log_emits st _ _ LevelInfo msg [] rfl
      (by simpa [Logger.withArgs] using he)
  refine ⟨_, _, _, _, h1, h2, h3, rfl, ?_, ?_⟩
  · simp [State.afterEmit, Logger.withArgs, qualify, argsToAttrs,
      argToValue]
  · simp [State.afterEmit, Logger.withArgs, qualify, argsToAttrs,
      argToValue]

/-- Witness for C7 at concrete keys and values. -/
theorem C7_witness :
    ∃ ctx1 ctx2 st' r,
      With initState Context.background
          [Arg.str "a", Arg.val (Value.int 1)] = some (ctx1, initState) ∧
      With initState ctx1 [Arg.str "b", Arg.val (Value.int 2)] =
        some (ctx2, initState) ∧
      Info initState ctx2 "m" [] = some st' ∧
      st'.records = initState.records ++ [r] ∧
      (⟨baselineLogger.groups, "a", Value.int 1⟩ : QAttr) ∈ r.attrs ∧
      (⟨baselineLogger.groups, "b", Value.int 2⟩ : QAttr) ∈ r.attrs :=
  C7_with_accumulates initState Context.background baselineLogger "a" "b"
    "m" (Value.int 1) (Value.int 2) rfl (by decide)

/-! ## C8 -/

/-- C8 counterexample: with the empty group name, `slog.Logger.WithGroup`
returns the receiver unchanged, so a key emitted afterwards is *not*
qualified by the group name: its group path stays empty instead of
gaining the entry `""`. -/
theorem C8_counterexample :
    baselineLogger.withGroup "" = baselineLogger ∧
    WithGroup initState Context.background "" =
      some (WithLogger Context.background (some baselineLogger),
        initState) ∧
    Info initState (WithLogger Context.background (some baselineLogger))
        "m" [Arg.str "k", Arg.val (Value.int 1)] =
      some ⟨some baselineLogger,
        [⟨0, LevelInfo, "m", [⟨[], "k", Value.int 1⟩]⟩]⟩ ∧
    ([] : List String) ≠ [""] := ⟨rfl, rfl, rfl, by decide⟩

/-- C8 (amended): for a *nonempty* group name, `WithGroup` binds a logger
whose open groups extend the resolved logger's groups by that name: every
key emitted afterwards is qualified by it, attributes pre-bound by a later
`With` on the returned context are qualified by it, and a second nested
`WithGroup` with a nonempty name composes in declared order (outer group
first). -/
theorem C8_withGroup_qualifies (st : State) (ctx : Context) (l : Logger)
    (g g2 k msg : String) (v : Value)
    (h : loggerFromContext st ctx = some l) (hg : g ≠ "") (hg2 : g2 ≠ "")
    (he : l.minLevel ≤ LevelInfo) :
    ∃ cg,
      WithGroup st ctx g = some (cg, st) ∧
      loggerFromContext st cg =
        some { l with groups := l.groups ++ [g] } ∧
      Info st cg msg [Arg.str k, Arg.val v] =
        some { st with records := st.records ++ [⟨l.sink, LevelInfo, msg,
          l.preAttrs ++ [⟨l.groups ++ [g], k, v⟩]⟩] } ∧
      (∃ cw, With st cg [Arg.str k, Arg.val v] = some (cw, st) ∧
        loggerFromContext st cw =
          some { l with groups := l.groups ++ [g],
                        preAttrs := l.preAttrs ++
                          [⟨l.groups ++ [g], k, v⟩] }) ∧
      (∃ cgg, WithGroup st cg g2 = some (cgg, st) ∧
        loggerFromContext st cgg =
          some { l with groups := l.groups ++ [g] ++ [g2] }) := by
  have hwg : l.withGroup g = { l with groups := l.groups ++ [g] } := by
    simp [Logger.withGroup, hg]
  have hwg2 : Logger.withGroup { l with groups := l.groups ++ [g] } g2 =
      { l with groups := l.groups ++ [g] ++ [g2] } := by
    simp [Logger.withGroup, hg2]
  refine ⟨WithLogger ctx (some { l with groups := l.groups ++ [g] }),
    ?_, rfl, ?_, ?_, ?_⟩
  · simp [WithGroup, h, hwg]
  · have := Log_emits st
      (WithLogger ctx (some { l with groups := l.groups ++ [g] }))
      { l with groups := l.groups ++ [g] } LevelInfo msg
      [Arg.str k, Arg.val v] rfl he
    simpa [State.afterEmit, qualify, argsToAttrs, argToValue] using this
  · refine ⟨WithLogger (WithLogger ctx
        (some { l with groups := l.groups ++ [g] }))
      (some (Logger.withArgs { l with groups := l.groups ++ [g] }
        [Arg.str k, Arg.val v])), ?_, ?_⟩
    · simp [With, loggerFromContext_withLogger]
    · simp [loggerFromContext_withLogger, Logger.withArgs, qualify,
        argsToAttrs, argToValue]
  · exact ⟨WithLogger (WithLogger ctx
        (some { l with groups := l.groups ++ [g] }))
      (some { l with groups := l.groups ++ [g] ++ [g2] }),
      by simp [WithGroup, loggerFromContext_withLogger, hwg2], rfl⟩

/-- Witness for the amended C8 at concrete group names. -/
theorem C8_witness :
    ∃ cg,
      WithGroup initState Context.background "g" = some (cg, initState) ∧
      loggerFromContext initState cg =
        some { baselineLogger with groups := baselineLogger.groups ++ ["g"] } ∧
      Info initState cg "m" [Arg.str "k", Arg.val (Value.int 1)] =
        some { initState with records := initState.records ++
          [⟨baselineLogger.sink, LevelInfo, "m", baselineLogger.preAttrs ++
            [⟨baselineLogger.groups ++ ["g"], "k", Value.int 1⟩]⟩] } ∧
      (∃ cw, With initState cg [Arg.str "k", Arg.val (Value.int 1)] =
          some (cw, initState) ∧
        loggerFromContext initState cw =
          some { baselineLogger with
                 groups := baselineLogger.groups ++ ["g"],
                 preAttrs := baselineLogger.preAttrs ++
                   [⟨baselineLogger.groups ++ ["g"], "k", Value.int 1⟩] }) ∧
      (∃ cgg, WithGroup initState cg "h" = some (cgg, initState) ∧
        loggerFromContext initState cgg =
          some { baselineLogger with
                 groups := baselineLogger.groups ++ ["g"] ++ ["h"] }) :=
  C8_withGroup_qualifies initState Context.background baselineLogger "g"
    "h" "k" "m" (Value.int 1) rfl (by decide) (by decide) (by decide)

/-! ## C9 -/

/-- A successful `With` returns the state unchanged and a context that is
one reserved-slot binding on top of the untouched parent. -/
theorem With_shape (st : State) (ctx : Context) (args : List Arg)
    (c' : Context) (s' : State) (hw : With st ctx args = some (c', s')) :
    s' = st ∧ ∃ r, c' = WithLogger ctx r := by
  unfold With at hw
  cases args with
  | nil =>
      simp only [Option.some.injEq, Prod.mk.injEq] at hw
      exact ⟨hw.2.symm, _, hw.1.symm⟩
  | cons a as =>
      cases hres : loggerFromContext st ctx with
      | none => rw [hres] at hw; simp at hw
      | some l =>
          rw [hres] at hw
          simp only [Option.some.injEq, Prod.mk.injEq] at hw
          exact ⟨hw.2.symm, _, hw.1.symm⟩

/-- A successful `WithAttrs` returns the state unchanged and a context
that is one reserved-slot binding on top of the untouched parent. -/
theorem WithAttrs_shape (st : State) (ctx : Context) (attrs : List Attr)
    (c' : Context) (s' : State)
    (hw : WithAttrs st ctx attrs = some (c', s')) :
    s' = st ∧ ∃ r, c' = WithLogger ctx r := by
  unfold WithAttrs at hw
  cases attrs with
  | nil =>
      simp only [attrsToArgs, Option.some.injEq, Prod.mk.injEq] at hw
      exact ⟨hw.2.symm, _, hw.1.symm⟩
  | cons a rest =>
      simp only [attrsToArgs] at hw
      cases hres : loggerFromContext st ctx with
      | none => rw [hres] at hw; simp at hw
      | some l =>
          rw [hres] at hw
          simp only [Option.some.injEq, Prod.mk.injEq] at hw
          exact ⟨hw.2.symm, _, hw.1.symm⟩

/-- A successful `WithGroup` returns the state unchanged and a context
that is one reserved-slot binding on top of the untouched parent. -/
theorem WithGroup_shape (st : State) (ctx : Context) (g : String)
    (c' : Context) (s' : State)
    (hw : WithGroup st ctx g = some (c', s')) :
    s' = st ∧ ∃ r, c' = WithLogger ctx r := by
  unfold WithGroup at hw
  cases hres : loggerFromContext st ctx with
  | none =>
      rw [hres] at hw
      by_cases hg : g = ""
      · simp only [hg, if_pos, Option.some.injEq, Prod.mk.injEq] at hw
        exact ⟨hw.2.symm, _, hw.1.symm⟩
      · simp [hg] at hw
  | some l =>
      rw [hres] at hw
      simp only [Option.some.injEq, Prod.mk.injEq] at hw
      exact ⟨hw.2.symm, _, hw.1.symm⟩

/-- C9: context derivation is purely additive and non-destructive: each
derivation operation returns the process state unchanged, the derived
context is a single reserved-slot binding on top of the untouched parent
(for `WithLogger`, by construction), emitting through the parent after
the derivation is the same as before, and a sibling derivation from any
other context is unaffected. -/
theorem C9_derivation_nondestructive (st : State) (ctx ctx2 : Context)
    (args args2 : List Arg) (attrs : List Attr) (g msg : String)
    (margs : List Arg) (lvl : Int) (lref : LoggerRef) :
    (∀ c' s', With st ctx args = some (c', s') →
      s' = st ∧ (∃ r, c' = WithLogger ctx r) ∧
      Log s' ctx lvl msg margs = Log st ctx lvl msg margs ∧
      With s' ctx2 args2 = With st ctx2 args2) ∧
    (∀ c' s', WithAttrs st ctx attrs = some (c', s') →
      s' = st ∧ ∃ r, c' = WithLogger ctx r) ∧
    (∀ c' s', WithGroup st ctx g = some (c', s') →
      s' = st ∧ ∃ r, c' = WithLogger ctx r) ∧
    WithLogger ctx lref =
      Context.withValue ctx CtxKey.loggerKey (CtxVal.logger lref) := by
  refine ⟨?_, ?_, ?_, rfl⟩
  · intro c' s' hw
    obtain ⟨hs, r, hc⟩ := With_shape st ctx args c' s' hw
    subst hs
    exact ⟨rfl, ⟨r, hc⟩, rfl, rfl⟩
  · exact fun c' s' hw => WithAttrs_shape st ctx attrs c' s' hw
  · exact fun c' s' hw => WithGroup_shape st ctx g c' s' hw

/-- Witness for C9: a concrete `With` derivation leaves the state, the
parent's emission and a sibling derivation untouched. -/
theorem C9_witness :
    initState = initState ∧
    (∃ r, WithLogger Context.background
        (some (baselineLogger.withArgs
          [Arg.str "k", Arg.val (Value.int 1)])) =
      WithLogger Context.background r) ∧
    Log initState Context.background LevelInfo "m" [] =
      Log initState Context.background LevelInfo "m" [] ∧
    With initState Context.background [] =
      With initState Context.background [] :=
  (C9_derivation_nondestructive initState Context.background
    Context.background [Arg.str "k", Arg.val (Value.int 1)] [] [] "g" "m"
    [] LevelInfo none).1
    (WithLogger Context.background
      (some (baselineLogger.withArgs [Arg.str "k", Arg.val (Value.int 1)])))
    initState rfl

/-! ## C10 -/

/-- C10: on a context whose chain carries no bound logger, each of
`With`, `WithAttrs` and `WithGroup` captures the default logger current
at the moment of the call: the returned context is bound to a logger
derived from that captured instance (with its sink), and resolution on
the returned context still yields that derived logger after a later
`SetDefault` replaces the process-wide default. -/
theorem C10_derivations_capture_default (st : State) (ctx : Context)
    (d : Logger) (nd : LoggerRef) (args : List Arg) (attrs : List Attr)
    (g : String) (hb : ctx.boundLogger = none)
    (hd : st.defaultLogger = some d) (hargs : args ≠ [])
    (hattrs : attrs ≠ []) (hg : g ≠ "") :
    With st ctx args =
      some (WithLogger ctx (some (d.withArgs args)), st) ∧
    loggerFromContext (SetDefault nd st)
        (WithLogger ctx (some (d.withArgs args))) =
      some (d.withArgs args) ∧
    (d.withArgs args).sink = d.sink ∧
    WithAttrs st ctx attrs =
      some (WithLogger ctx (some (d.withArgs (attrsToArgs attrs))), st) ∧
    loggerFromContext (SetDefault nd st)
        (WithLogger ctx (some (d.withArgs (attrsToArgs attrs)))) =
      some (d.withArgs (attrsToArgs attrs)) ∧
    WithGroup st ctx g =
      some (WithLogger ctx (some (d.withGroup g)), st) ∧
    loggerFromContext (SetDefault nd st)
        (WithLogger ctx (some (d.withGroup g))) = some (d.withGroup g) ∧
    (d.withGroup g).sink = d.sink := by
  have hres : loggerFromContext st ctx = some d := by
    rw [loggerFromContext_eq, hb, hd]; rfl
  refine ⟨?_, rfl, rfl, ?_, rfl, ?_, rfl, ?_⟩
  · cases args with
    | nil => exact absurd rfl hargs
    | cons a as => simp [With, hres]
  · cases attrs with
    | nil => exact absurd rfl hattrs
    | cons a rest => simp [WithAttrs, attrsToArgs, hres]
  · simp [WithGroup, hres]
  · simp [Logger.withGroup, hg]

/-- Witness for C10 at concrete arguments over the baseline default. -/
theorem C10_witness :
    With initState Context.background [Arg.str "k", Arg.val (Value.int 1)] =
      some (WithLogger Context.background
        (some (baselineLogger.withArgs
          [Arg.str "k", Arg.val (Value.int 1)])), initState) ∧
    loggerFromContext (SetDefault none initState)
        (WithLogger Context.background
          (some (baselineLogger.withArgs
            [Arg.str "k", Arg.val (Value.int 1)]))) =
      some (baselineLogger.withArgs [Arg.str "k", Arg.val (Value.int 1)]) ∧
    (baselineLogger.withArgs [Arg.str "k", Arg.val (Value.int 1)]).sink =
      baselineLogger.sink ∧
    WithAttrs initState Context.background [⟨"a", Value.str "v"⟩] =
      some (WithLogger Context.background
        (some (baselineLogger.withArgs
          (attrsToArgs [⟨"a", Value.str "v"⟩]))), initState) ∧
    loggerFromContext (SetDefault none initState)
        (WithLogger Context.background
          (some (baselineLogger.withArgs
            (attrsToArgs [⟨"a", Value.str "v"⟩])))) =
      some (baselineLogger.withArgs (attrsToArgs [⟨"a", Value.str "v"⟩])) ∧
    WithGroup initState Context.background "g" =
      some (WithLogger Context.background
        (some (baselineLogger.withGroup "g")), initState) ∧
    loggerFromContext (SetDefault none initState)
        (WithLogger Context.background
          (some (baselineLogger.withGroup "g"))) =
      some (baselineLogger.withGroup "g") ∧
    (baselineLogger.withGroup "g").sink = baselineLogger.sink :=
  C10_derivations_capture_default initState Context.background
    baselineLogger none [Arg.str "k", Arg.val (Value.int 1)]
    [⟨"a", Value.str "v"⟩] "g" rfl rfl (by decide) (by decide) (by decide)

end Clog
